import Mathlib

/-!
Shallow embedding of `src/stats-server/log_parser/report.py`: the player
statistics accumulator (`PlayerStats`), the round snapshot (`RoundReport`),
the match snapshot (`MatchReport`) and the memoizing collection
(`MatchReportCollection`), together with theorems settling the spec claims.

Modelling conventions:
- `Player` and `Weapon` are opaque hashable identities in the source; we use
  `Nat`.
- `Team` has exactly the two distinguished values `CT_team` and
  `Terrorist_team` from `log_parser.entity`; we use a two-constructor
  inductive type.
- `datetime.datetime` / `datetime.timedelta` are modelled as integers
  (subtraction of instants yields a duration, durations add).
- `Event` lives in `log_parser.event`, outside the embedded file.  Modelled
  from the spec: the spec's capability contract for events gives exactly
  `timestamp()`, `isAttack()`, `isKill()` and
  `applyTo(player, accumulator, roundContext)` which "mutates accumulator
  based on this event's relevance to `player` within `roundContext`"; so an
  event is a record of a timestamp, two Booleans and an arbitrary
  accumulator-transforming function over the round context.  The round
  context (`RoundCtx`) exposes the round data an event can observe.
- Python mutation is modelled by explicit state passing: a method mutating an
  accumulator in place becomes a function returning the new accumulator; the
  `lru_cache` on `MatchReportCollection.collect_stats` (keyed by the instance
  itself, since the class inherits identity hash and equality) becomes an
  explicit per-instance `Option` cache field threaded through calls.
- Python error outcomes are modelled with `Except Err`.  Following the
  spec's error taxonomy (section 7), an `assert` failure and an index into an
  empty match-event list are both `Err.preconditionViolation`, the
  `Exception` in `get_first_attack` is `Err.noAttackFound`, and exhaustion in
  `get_first_kill` is `Err.noKillFound`.
-/

namespace CSReport

abbrev Player := Nat

abbrev Weapon := Nat

abbrev Time := Int

/-- The two distinguished team identities `CT_team` and `Terrorist_team`. -/
inductive Team where
  | ct
  | terrorist
deriving DecidableEq, Repr

/-- Embedding of the `PlayerStats` dataclass: all counters default to zero,
`time_spent` defaults to the zero duration and the per-weapon damage table is
a `defaultdict(int)`, modelled as a total function defaulting to `0`. -/
structure PlayerStats where
  damage_inflicted : Nat := 0
  damage_received : Nat := 0
  kills : Nat := 0
  deaths : Nat := 0
  rounds_won : Nat := 0
  rounds_lost : Nat := 0
  time_spent : Int := 0
  damage_inflicted_by_weapon : Weapon → Nat := fun _ => 0

/-- `PlayerStats.total_rounds_played`: `rounds_won + rounds_lost`. -/
def PlayerStats.total_rounds_played (s : PlayerStats) : Nat :=
  s.rounds_won + s.rounds_lost

/-- The round data an event's `impact_player_stats` receives as its
`round_report` argument: start and end instants, the frozen team
composition and the optional winner. -/
structure RoundCtx where
  start_time : Time
  end_time : Time
  team_composition : Team → List Player
  winner_team : Option Team

/-- Modelled from the spec: the external `Event` capability interface of
`log_parser.event` (`timestamp()`, `isAttack()`, `isKill()`,
`applyTo(player, accumulator, roundContext)`); `impact_player_stats` is an
arbitrary accumulator transformation observing the round context. -/
structure Event where
  timestamp : Time
  is_attack : Bool
  is_kill : Bool
  impact_player_stats : Player → PlayerStats → RoundCtx → PlayerStats

/-- Embedding of `RoundReport`: start/end instants, the frozen ordered event
tuple, the frozen team composition and the optional winner team. -/
structure RoundReport where
  start_time : Time
  end_time : Time
  events : List Event
  team_composition : Team → List Player
  winner_team : Option Team

/-- The round context a `RoundReport` passes to events (the source passes
`self`; events observe the round's data). -/
def RoundReport.ctx (r : RoundReport) : RoundCtx :=
  ⟨r.start_time, r.end_time, r.team_composition, r.winner_team⟩

/-- `RoundReport.get_round_duration`: `end_time - start_time`. -/
def RoundReport.get_round_duration (r : RoundReport) : Int :=
  r.end_time - r.start_time

/-- `RoundReport.get_ct_team_composition`. -/
def RoundReport.get_ct_team_composition (r : RoundReport) : List Player :=
  r.team_composition Team.ct

/-- `RoundReport.get_terrorist_team_composition`. -/
def RoundReport.get_terrorist_team_composition (r : RoundReport) : List Player :=
  r.team_composition Team.terrorist

/-- `RoundReport.get_all_players`: CT roster concatenated with the Terrorist
roster. -/
def RoundReport.get_all_players (r : RoundReport) : List Player :=
  r.get_ct_team_composition ++ r.get_terrorist_team_composition

/-- `RoundReport.add_to_player_stats`: when `player` participates, dispatch
every event in order to `impact_player_stats` and then add the round duration
to `time_spent`; otherwise leave the accumulator untouched. -/
def RoundReport.add_to_player_stats (r : RoundReport) (player : Player)
    (stats : PlayerStats) : PlayerStats :=
  if player ∈ r.get_all_players then
    let s := r.events.foldl (fun acc e => e.impact_player_stats player acc r.ctx) stats
    { s with time_spent := s.time_spent + r.get_round_duration }
  else
    stats

/-- Error kinds of the spec's section 7: `PreconditionViolation` covers the
`assert` in the round-level stats accessor and indexing an empty match-level
event list; `NoAttackFound` and `NoKillFound` cover the first-attack and
first-kill scans. -/
inductive Err where
  | preconditionViolation
  | noAttackFound
  | noKillFound
deriving DecidableEq, Repr

/-- `RoundReport.get_player_stats`: `assert player in get_all_players()`,
then build a fresh `PlayerStats()` and run `add_to_player_stats` on it. -/
def RoundReport.get_player_stats (r : RoundReport) (player : Player) :
    Except Err PlayerStats :=
  if player ∈ r.get_all_players then
    Except.ok (r.add_to_player_stats player {})
  else
    Except.error Err.preconditionViolation

/-- Embedding of `MatchReport`: the match-level event list, the map name and
the frozen tuple of round reports. -/
structure MatchReport where
  match_events : List Event
  map_name : String
  round_reports : List RoundReport

/-- `MatchReport._all_round_events`: all rounds' events, round by round in
round order and event by event in event order. -/
def MatchReport.all_round_events (m : MatchReport) : List Event :=
  m.round_reports.flatMap (fun r => r.events)

/-- `MatchReport.get_first_attack`: first event of `all_round_events` whose
`is_attack()` holds, or the no-attack error. -/
def MatchReport.get_first_attack (m : MatchReport) : Except Err Event :=
  match m.all_round_events.find? (fun e => e.is_attack) with
  | some e => Except.ok e
  | none => Except.error Err.noAttackFound

/-- `MatchReport.get_start_time`: timestamp of `match_events[0]`; indexing an
empty list is the spec's precondition violation. -/
def MatchReport.get_start_time (m : MatchReport) : Except Err Time :=
  match m.match_events with
  | [] => Except.error Err.preconditionViolation
  | e :: _ => Except.ok e.timestamp

/-- `MatchReport.get_end_time`: timestamp of `match_events[-1]`; indexing an
empty list is the spec's precondition violation. -/
def MatchReport.get_end_time (m : MatchReport) : Except Err Time :=
  match m.match_events.getLast? with
  | none => Except.error Err.preconditionViolation
  | some e => Except.ok e.timestamp

/-- The team-to-list table built by `get_rounds_by_winner_team`: start from
`{CT_team: [], Terrorist_team: []}` and append each round to its winner's
list, skipping rounds whose winner is `None`. -/
def MatchReport.winner_table (m : MatchReport) : Team → List RoundReport :=
  m.round_reports.foldl
    (fun acc r =>
      match r.winner_team with
      | some w => fun t => if t = w then acc t ++ [r] else acc t
      | none => acc)
    (fun _ => [])

/-- `MatchReport.get_rounds_by_winner_team` as the Python dict it returns: an
association list whose keys are, in insertion order, exactly the CT team and
the Terrorist team. -/
def MatchReport.get_rounds_by_winner_team (m : MatchReport) :
    List (Team × List RoundReport) :=
  [(Team.ct, m.winner_table Team.ct), (Team.terrorist, m.winner_table Team.terrorist)]

/-- `MatchReport.get_scores`: each winner list replaced by its length. -/
def MatchReport.get_scores (m : MatchReport) : List (Team × Nat) :=
  m.get_rounds_by_winner_team.map (fun tl => (tl.1, tl.2.length))

/-- `MatchReport.add_to_player_stats`: run the round-level accumulation over
every round in order. -/
def MatchReport.add_to_player_stats (m : MatchReport) (player : Player)
    (stats : PlayerStats) : PlayerStats :=
  m.round_reports.foldl (fun s r => r.add_to_player_stats player s) stats

/-- `MatchReport.get_player_stats`: fresh `PlayerStats()` accumulated over
every round; no participation precondition. -/
def MatchReport.get_player_stats (m : MatchReport) (player : Player) : PlayerStats :=
  m.add_to_player_stats player {}

/-- `MatchReport.get_all_players`: the set of players over all rounds,
modelled as the deduplicated concatenation of the rounds' rosters. -/
def MatchReport.get_all_players (m : MatchReport) : List Player :=
  (m.round_reports.flatMap (fun r => r.get_all_players)).dedup

/-- `MatchReport.add_to_player_stats_table`: for every player of the match,
look up that player's accumulator in the table and accrue this match into it.
The table is modelled as a total function, matching the `defaultdict` the
collection passes in. -/
def MatchReport.add_to_player_stats_table (m : MatchReport)
    (table : Player → PlayerStats) : Player → PlayerStats :=
  m.get_all_players.foldl
    (fun tbl p q => if q = p then m.add_to_player_stats p (tbl p) else tbl q)
    table

/-- Embedding of `MatchReportCollection`: the fixed collection of match
reports. -/
structure MatchReportCollection where
  match_reports : List MatchReport

/-- The computation inside `MatchReportCollection.collect_stats`: start from
`defaultdict(PlayerStats)` and run `add_to_player_stats_table` for every
match in order. -/
def MatchReportCollection.collect_stats (c : MatchReportCollection) :
    Player → PlayerStats :=
  c.match_reports.foldl (fun tbl m => m.add_to_player_stats_table tbl) (fun _ => {})

/-- A `MatchReportCollection` instance together with the `lru_cache` entry
keyed by it: the class defines no custom equality or hash, so the cache entry
is per instance; a freshly constructed instance starts with no entry. -/
structure CollectionState where
  match_reports : List MatchReport
  cache : Option (Player → PlayerStats) := none

/-- `MatchReportCollection.collect_stats` as observed through its
`lru_cache`: return the cached table untouched when present, otherwise
compute it once and store it. -/
def CollectionState.collect_stats_cached (s : CollectionState) :
    (Player → PlayerStats) × CollectionState :=
  match s.cache with
  | some t => (t, s)
  | none =>
    let t := (MatchReportCollection.mk s.match_reports).collect_stats
    (t, { s with cache := some t })

/-- Score order used by `get_sorted_score_table`: `sorted(..., key=kv[1],
reverse=True)` places `a` before `b` when `b`'s score is at most `a`'s.
Scores (Python floats) are modelled as integers, a linearly ordered numeric
type. -/
def scoreGE (a b : Player × Int) : Prop :=
  b.2 ≤ a.2

instance : DecidableRel scoreGE := fun a b => inferInstanceAs (Decidable (b.2 ≤ a.2))

instance : IsTotal (Player × Int) scoreGE :=
  ⟨fun a b => (Int.le_total b.2 a.2).imp id id⟩

instance : IsTrans (Player × Int) scoreGE :=
  ⟨fun _ _ _ hab hbc => le_trans hbc hab⟩

/-- A `ScorerStrategy`, reduced to the part this core consumes: the
`Player → score` mapping its `get_player_scores(collection)` returns, taken
as its ordered list of items. -/
def Scorer := MatchReportCollection → List (Player × Int)

/-- `MatchReportCollection.get_sorted_score_table`: the scorer's items sorted
by score descending with a stable sort. -/
def MatchReportCollection.get_sorted_score_table (c : MatchReportCollection)
    (scorer : Scorer) : List (Player × Int) :=
  (scorer c).insertionSort scoreGE

/-- `MatchReportCollection.get_best_player`: `score_table[0]`; indexing an
empty table is the precondition violation. -/
def MatchReportCollection.get_best_player (c : MatchReportCollection)
    (scorer : Scorer) : Except Err (Player × Int) :=
  match c.get_sorted_score_table scorer with
  | [] => Except.error Err.preconditionViolation
  | x :: _ => Except.ok x

/-! Concrete fixtures used by witnesses and counterexamples. -/

/-- A kill event: player `0` kills player `1`. -/
def killEv : Event where
  timestamp := 5
  is_attack := true
  is_kill := true
  impact_player_stats := fun p s _ =>
    if p = 0 then { s with kills := s.kills + 1 }
    else if p = 1 then { s with deaths := s.deaths + 1 }
    else s

/-- A two-player roster: player `0` on CT, player `1` on Terrorist. -/
def comp0 : Team → List Player := fun t =>
  match t with
  | Team.ct => [0]
  | Team.terrorist => [1]

/-- A 60-second round won by CT containing one kill event. -/
def round0 : RoundReport where
  start_time := 0
  end_time := 60
  events := [killEv]
  team_composition := comp0
  winner_team := some Team.ct

/-- A 60-second round with no events and no winner. -/
def roundEmpty : RoundReport where
  start_time := 0
  end_time := 60
  events := []
  team_composition := comp0
  winner_team := none

/-- A match holding `round0` and `roundEmpty`. -/
def match0 : MatchReport where
  match_events := [killEv]
  map_name := "de_dust2"
  round_reports := [round0, roundEmpty]

/-- A match with no events and no rounds. -/
def matchNoEvents : MatchReport where
  match_events := []
  map_name := "de_aztec"
  round_reports := []

/-- A nonzero accumulator. -/
def stats1 : PlayerStats where
  damage_inflicted := 3
  kills := 2
  time_spent := 7

/-- An empty collection (scorers are arbitrary functions, so this suffices to
exercise the score-table operations). -/
def coll0 : MatchReportCollection where
  match_reports := []

/-- A scorer assigning scores 10, 30, 20 to players 5, 7, 9. -/
def scorer0 : Scorer := fun _ => [(5, 10), (7, 30), (9, 20)]

/-! Helper lemmas shared by the claim theorems. -/

/-- Round-level accumulation is the identity on non-participants. -/
lemma round_add_noop {r : RoundReport} {p : Player} (h : p ∉ r.get_all_players)
    (s : PlayerStats) : r.add_to_player_stats p s = s := by
  simp [RoundReport.add_to_player_stats, h]

/-- Folding round-level accumulation over rounds none of which the player is
in is the identity. -/
lemma foldl_round_add_noop {p : Player} :
    ∀ (l : List RoundReport), (∀ r ∈ l, p ∉ r.get_all_players) →
      ∀ s : PlayerStats, l.foldl (fun s r => r.add_to_player_stats p s) s = s := by
  intro l
  induction l with
  | nil => intro _ s; rfl
  | cons r rest ih =>
    intro h s
    simp only [List.foldl_cons]
    rw [round_add_noop (h r (List.mem_cons_self r rest)) s]
    exact ih (fun x hx => h x (List.mem_cons_of_mem r hx)) s

/-- Membership in a match's player set is membership in some round's roster. -/
lemma mem_match_all_players {m : MatchReport} {p : Player} :
    p ∈ m.get_all_players ↔ ∃ r ∈ m.round_reports, p ∈ r.get_all_players := by
  simp [MatchReport.get_all_players, List.mem_dedup, List.mem_flatMap]

/-- Match-level accumulation is the identity on players absent from every
round of the match. -/
lemma match_add_noop {m : MatchReport} {p : Player} (h : p ∉ m.get_all_players)
    (s : PlayerStats) : m.add_to_player_stats p s = s := by
  unfold MatchReport.add_to_player_stats
  refine foldl_round_add_noop m.round_reports ?_ s
  intro r hr hp
  exact h (mem_match_all_players.mpr ⟨r, hr, hp⟩)

/-- The winner-table fold, started from any accumulator, appends exactly the
rounds won by each team in round order. -/
lemma winner_fold_general :
    ∀ (l : List RoundReport) (acc : Team → List RoundReport) (t : Team),
      (l.foldl
        (fun acc r =>
          match r.winner_team with
          | some w => fun u => if u = w then acc u ++ [r] else acc u
          | none => acc)
        acc) t
      = acc t ++ l.filter (fun r => r.winner_team = some t) := by
  intro l
  induction l with
  | nil => intro acc t; simp
  | cons r rest ih =>
    intro acc t
    simp only [List.foldl_cons]
    rw [ih]
    cases hw : r.winner_team with
    | none => simp [List.filter_cons, hw]
    | some w =>
      by_cases htw : t = w
      · subst htw
        simp [List.filter_cons, hw, List.append_assoc]
      · have : (some w = some t) = False := by
          simp [Option.some_inj]
          exact fun hwt => htw hwt.symm
        simp [List.filter_cons, hw, htw, this]

/-- Each team's entry of the winner table is the ordered sublist of rounds it
won. -/
lemma winner_table_eq_filter (m : MatchReport) (t : Team) :
    m.winner_table t = m.round_reports.filter (fun r => r.winner_team = some t) := by
  unfold MatchReport.winner_table
  rw [winner_fold_general]
  rfl

/-- Counting rounds won by CT plus rounds won by Terrorist counts exactly the
rounds that have a winner. -/
lemma count_winner_rounds (l : List RoundReport) :
    (l.filter (fun r => r.winner_team = some Team.ct)).length
      + (l.filter (fun r => r.winner_team = some Team.terrorist)).length
      = (l.filter (fun r => r.winner_team.isSome)).length := by
  induction l with
  | nil => rfl
  | cons r rest ih =>
    rcases hw : r.winner_team with _ | w
    · simpa [List.filter_cons, hw] using ih
    · cases w <;> simp [List.filter_cons, hw] <;> omega

/-- Folding the table update over a duplicate-free player list updates each
looked-up player exactly once and leaves other entries of the table alone. -/
lemma foldl_table_update (m : MatchReport) :
    ∀ (l : List Player), l.Nodup → ∀ (tbl : Player → PlayerStats) (q : Player),
      (l.foldl
        (fun tbl p q => if q = p then m.add_to_player_stats p (tbl p) else tbl q)
        tbl) q
      = if q ∈ l then m.add_to_player_stats q (tbl q) else tbl q := by
  intro l
  induction l with
  | nil => intro _ tbl q; simp
  | cons p rest ih =>
    intro hnd tbl q
    obtain ⟨hp, hrest⟩ := List.nodup_cons.mp hnd
    simp only [List.foldl_cons]
    rw [ih hrest]
    by_cases hq : q = p
    · subst hq
      have hqr : q ∉ rest := hp
      simp [hqr]
    · by_cases hr : q ∈ rest <;> simp [hq, hr]

/-- One match's `add_to_player_stats_table`, read at any player, accrues
exactly that match into the player's table entry (a no-op for players absent
from the match, matching the round-level no-op rule). -/
lemma table_step (m : MatchReport) (tbl : Player → PlayerStats) (q : Player) :
    m.add_to_player_stats_table tbl q = m.add_to_player_stats q (tbl q) := by
  unfold MatchReport.add_to_player_stats_table
  rw [foldl_table_update m m.get_all_players (List.nodup_dedup _) tbl q]
  by_cases hq : q ∈ m.get_all_players
  · simp [hq]
  · simp [hq, match_add_noop hq (tbl q)]

/-- Folding matches into the table, read at one player, is the per-player
fold of match-level accumulation. -/
lemma collect_fold_pointwise (p : Player) :
    ∀ (l : List MatchReport) (tbl : Player → PlayerStats),
      (l.foldl (fun tbl m => m.add_to_player_stats_table tbl) tbl) p
        = l.foldl (fun s m => m.add_to_player_stats p s) (tbl p) := by
  intro l
  induction l with
  | nil => intro tbl; rfl
  | cons m rest ih =>
    intro tbl
    simp only [List.foldl_cons]
    rw [ih, table_step]

/-- A match-order fold of match-level accumulation is the round-order fold of
round-level accumulation over the flattened round list. -/
lemma match_fold_eq_round_fold (p : Player) :
    ∀ (l : List MatchReport) (s : PlayerStats),
      l.foldl (fun s m => m.add_to_player_stats p s) s
        = (l.flatMap (fun m => m.round_reports)).foldl
            (fun s r => r.add_to_player_stats p s) s := by
  intro l
  induction l with
  | nil => intro s; rfl
  | cons m rest ih =>
    intro s
    simp only [List.foldl_cons, List.flatMap_cons, List.foldl_append]
    rw [ih]
    rfl

/-! Claim theorems. -/

/-- C5: for every round, every player not in the round's `get_all_players()`
and every accumulator, `add_to_player_stats` raises no error and leaves the
accumulator unchanged field for field. -/
theorem round_add_non_participant_frame (r : RoundReport) (p : Player)
    (stats : PlayerStats) (h : p ∉ r.get_all_players) :
    (r.add_to_player_stats p stats).damage_inflicted = stats.damage_inflicted ∧
    (r.add_to_player_stats p stats).damage_received = stats.damage_received ∧
    (r.add_to_player_stats p stats).kills = stats.kills ∧
    (r.add_to_player_stats p stats).deaths = stats.deaths ∧
    (r.add_to_player_stats p stats).rounds_won = stats.rounds_won ∧
    (r.add_to_player_stats p stats).rounds_lost = stats.rounds_lost ∧
    (r.add_to_player_stats p stats).time_spent = stats.time_spent ∧
    (r.add_to_player_stats p stats).damage_inflicted_by_weapon
      = stats.damage_inflicted_by_weapon := by
  rw [round_add_noop h stats]
  exact ⟨rfl, rfl, rfl, rfl, rfl, rfl, rfl, rfl⟩

/-- Witness for C5: player `5` is not in `round0`, and accumulating leaves the
nonzero accumulator `stats1` unchanged in every field. -/
theorem round_add_non_participant_frame_witness :
    (5 ∉ round0.get_all_players) ∧
    ((round0.add_to_player_stats 5 stats1).damage_inflicted = stats1.damage_inflicted ∧
     (round0.add_to_player_stats 5 stats1).damage_received = stats1.damage_received ∧
     (round0.add_to_player_stats 5 stats1).kills = stats1.kills ∧
     (round0.add_to_player_stats 5 stats1).deaths = stats1.deaths ∧
     (round0.add_to_player_stats 5 stats1).rounds_won = stats1.rounds_won ∧
     (round0.add_to_player_stats 5 stats1).rounds_lost = stats1.rounds_lost ∧
     (round0.add_to_player_stats 5 stats1).time_spent = stats1.time_spent ∧
     (round0.add_to_player_stats 5 stats1).damage_inflicted_by_weapon
       = stats1.damage_inflicted_by_weapon) :=
  ⟨by decide, round_add_non_participant_frame round0 5 stats1 (by decide)⟩

/-- C4: `get_player_stats` on a round fails with the precondition violation
for a non-participant; for a participant it returns a fresh accumulator built
by applying every event in order and then adding the round duration to
`time_spent`, unconditionally. -/
theorem round_get_player_stats_spec (r : RoundReport) (p : Player) :
    (p ∉ r.get_all_players →
      r.get_player_stats p = Except.error Err.preconditionViolation) ∧
    (p ∈ r.get_all_players →
      r.get_player_stats p =
        Except.ok
          (let s := r.events.foldl
            (fun acc e => e.impact_player_stats p acc r.ctx) ({} : PlayerStats)
           { s with time_spent := s.time_spent + r.get_round_duration })) := by
  constructor
  · intro h
    simp [RoundReport.get_player_stats, h]
  · intro h
    simp [RoundReport.get_player_stats, RoundReport.add_to_player_stats, h]

/-- Witness for C4: in `round0`, participant `0` gets the kill event applied
and the 60-second duration credited, while `5` triggers the precondition
violation. -/
theorem round_get_player_stats_spec_witness :
    ((0 ∈ round0.get_all_players) ∧
      round0.get_player_stats 0 =
        Except.ok
          (let s := round0.events.foldl
            (fun acc e => e.impact_player_stats 0 acc round0.ctx) ({} : PlayerStats)
           { s with time_spent := s.time_spent + round0.get_round_duration })) ∧
    ((5 ∉ round0.get_all_players) ∧
      round0.get_player_stats 5 = Except.error Err.preconditionViolation) :=
  ⟨⟨by decide, (round_get_player_stats_spec round0 0).2 (by decide)⟩,
   ⟨by decide, (round_get_player_stats_spec round0 5).1 (by decide)⟩⟩

/-- C10: the match-level `get_player_stats` has no participation
precondition: for a player in no round of the match it returns the all-zero
accumulator (every counter `0`, zero time, empty weapon-damage map). -/
theorem match_get_player_stats_non_participant (m : MatchReport) (p : Player)
    (h : ∀ r ∈ m.round_reports, p ∉ r.get_all_players) :
    (m.get_player_stats p).damage_inflicted = 0 ∧
    (m.get_player_stats p).damage_received = 0 ∧
    (m.get_player_stats p).kills = 0 ∧
    (m.get_player_stats p).deaths = 0 ∧
    (m.get_player_stats p).rounds_won = 0 ∧
    (m.get_player_stats p).rounds_lost = 0 ∧
    (m.get_player_stats p).time_spent = 0 ∧
    ∀ w, (m.get_player_stats p).damage_inflicted_by_weapon w = 0 := by
  have hz : m.get_player_stats p = ({} : PlayerStats) := by
    unfold MatchReport.get_player_stats MatchReport.add_to_player_stats
    exact foldl_round_add_noop m.round_reports h {}
  rw [hz]
  exact ⟨rfl, rfl, rfl, rfl, rfl, rfl, rfl, fun _ => rfl⟩

/-- Witness for C10: player `7` plays in no round of `match0`, and the
match-level accessor returns all-zero stats for it. -/
theorem match_get_player_stats_non_participant_witness :
    (∀ r ∈ match0.round_reports, 7 ∉ r.get_all_players) ∧
    ((match0.get_player_stats 7).damage_inflicted = 0 ∧
     (match0.get_player_stats 7).damage_received = 0 ∧
     (match0.get_player_stats 7).kills = 0 ∧
     (match0.get_player_stats 7).deaths = 0 ∧
     (match0.get_player_stats 7).rounds_won = 0 ∧
     (match0.get_player_stats 7).rounds_lost = 0 ∧
     (match0.get_player_stats 7).time_spent = 0 ∧
     ∀ w, (match0.get_player_stats 7).damage_inflicted_by_weapon w = 0) :=
  ⟨by decide, match_get_player_stats_non_participant match0 7 (by decide)⟩

/-- C1 counterexample: in `roundEmpty`, player `0` is a participant, yet the
stats returned for it have `total_rounds_played = 0`, not `1`: the round
itself never touches `rounds_won`/`rounds_lost` (the duration credit goes to
`time_spent`), so with no events nothing credits a round. -/
theorem round_total_rounds_played_counterexample :
    (0 ∈ roundEmpty.get_all_players) ∧
    (roundEmpty.get_player_stats 0).map PlayerStats.total_rounds_played
      = Except.ok 0 :=
  ⟨by decide, rfl⟩

/-- C1 amended: for every round and every participant, the
`total_rounds_played` of the returned stats equals whatever the round's
events alone credit to `rounds_won + rounds_lost` (starting from a zero
accumulator); the round's own duration credit never changes the round
counters.  In particular it is `1` exactly when the round's events credit one
round, and `0` for a round with no events. -/
theorem round_total_rounds_played_from_events (r : RoundReport) (p : Player)
    (h : p ∈ r.get_all_players) :
    (r.get_player_stats p).map PlayerStats.total_rounds_played =
      Except.ok
        (r.events.foldl (fun acc e => e.impact_player_stats p acc r.ctx)
          ({} : PlayerStats)).total_rounds_played := by
  simp [RoundReport.get_player_stats, RoundReport.add_to_player_stats, h,
    Except.map, PlayerStats.total_rounds_played]

/-- Witness for the amended C1: participant `0` of `roundEmpty` has
`total_rounds_played` equal to the (zero) credit of the empty event fold. -/
theorem round_total_rounds_played_from_events_witness :
    (0 ∈ roundEmpty.get_all_players) ∧
    (roundEmpty.get_player_stats 0).map PlayerStats.total_rounds_played =
      Except.ok
        (roundEmpty.events.foldl (fun acc e => e.impact_player_stats 0 acc roundEmpty.ctx)
          ({} : PlayerStats)).total_rounds_played :=
  ⟨by decide, round_total_rounds_played_from_events roundEmpty 0 (by decide)⟩

/-- C6: `get_rounds_by_winner_team` has exactly the two team keys, CT then
Terrorist, each mapped to the ordered list of rounds that team won (rounds
without a winner appear in neither list), and the values of `get_scores` sum
to the number of rounds that have a winner. -/
theorem match_rounds_by_winner_team_spec (m : MatchReport) :
    m.get_rounds_by_winner_team.map Prod.fst = [Team.ct, Team.terrorist] ∧
    (∀ t, m.winner_table t
      = m.round_reports.filter (fun r => r.winner_team = some t)) ∧
    (m.get_scores.map Prod.snd).sum
      = (m.round_reports.filter (fun r => r.winner_team.isSome)).length := by
  refine ⟨rfl, winner_table_eq_filter m, ?_⟩
  have hsum : (m.get_scores.map Prod.snd).sum
      = (m.winner_table Team.ct).length + (m.winner_table Team.terrorist).length := by
    simp [MatchReport.get_scores, MatchReport.get_rounds_by_winner_team]
  rw [hsum, winner_table_eq_filter, winner_table_eq_filter]
  exact count_winner_rounds m.round_reports

/-- C7: `get_start_time` returns the timestamp of the first match-level
event, `get_end_time` the timestamp of the last one, and both fail with the
precondition violation when the match-level event list is empty. -/
theorem match_time_bounds_spec (m : MatchReport) :
    (m.match_events = [] →
      m.get_start_time = Except.error Err.preconditionViolation ∧
      m.get_end_time = Except.error Err.preconditionViolation) ∧
    (∀ e, m.match_events.head? = some e →
      m.get_start_time = Except.ok e.timestamp) ∧
    (∀ e, m.match_events.getLast? = some e →
      m.get_end_time = Except.ok e.timestamp) := by
  refine ⟨?_, ?_, ?_⟩
  · intro h
    constructor
    · simp [MatchReport.get_start_time, h]
    · simp [MatchReport.get_end_time, h]
  · intro e he
    cases hl : m.match_events with
    | nil => rw [hl] at he; cases he
    | cons x rest =>
      rw [hl] at he
      simp only [List.head?_cons, Option.some_inj] at he
      subst he
      simp [MatchReport.get_start_time, hl]
  · intro e he
    simp [MatchReport.get_end_time, he]

/-- Witness for C7: `match0` has `killEv` as both first and last match-level
event, and `matchNoEvents` fails both time queries. -/
theorem match_time_bounds_spec_witness :
    (match0.match_events.head? = some killEv ∧
      match0.get_start_time = Except.ok killEv.timestamp) ∧
    (match0.match_events.getLast? = some killEv ∧
      match0.get_end_time = Except.ok killEv.timestamp) ∧
    (matchNoEvents.match_events = [] ∧
      matchNoEvents.get_start_time = Except.error Err.preconditionViolation ∧
      matchNoEvents.get_end_time = Except.error Err.preconditionViolation) :=
  ⟨⟨rfl, (match_time_bounds_spec match0).2.1 killEv rfl⟩,
   ⟨rfl, (match_time_bounds_spec match0).2.2 killEv rfl⟩,
   ⟨rfl, (match_time_bounds_spec matchNoEvents).1 rfl⟩⟩

/-- C8: `get_first_attack` returns the first event, visiting rounds in round
order and each round's events in event order, whose `is_attack` holds, and
fails with `noAttackFound` when no event of any round is an attack. -/
theorem match_first_attack_spec (m : MatchReport) :
    ((∀ e ∈ m.all_round_events, e.is_attack = false) →
      m.get_first_attack = Except.error Err.noAttackFound) ∧
    (∀ l1 e l2, m.all_round_events = l1 ++ e :: l2 → e.is_attack = true →
      (∀ x ∈ l1, x.is_attack = false) →
      m.get_first_attack = Except.ok e) := by
  constructor
  · intro h
    have hnone : m.all_round_events.find? (fun e => e.is_attack) = none := by
      rw [List.find?_eq_none]
      intro x hx
      simp [h x hx]
    simp [MatchReport.get_first_attack, hnone]
  · intro l1 e l2 hsplit he hl1
    have hfind : m.all_round_events.find? (fun e => e.is_attack) = some e := by
      rw [hsplit, List.find?_append]
      have h1 : l1.find? (fun e => e.is_attack) = none := by
        rw [List.find?_eq_none]
        intro x hx
        simp [hl1 x hx]
      rw [h1, List.find?_cons_of_pos _ he]
      rfl
    simp [MatchReport.get_first_attack, hfind]

/-- Witness for C8: in `match0` the kill event of `round0` is the first (and
only) attack, and the empty `matchNoEvents` fails with `noAttackFound`. -/
theorem match_first_attack_spec_witness :
    (match0.all_round_events = [] ++ killEv :: [] ∧
      killEv.is_attack = true ∧
      match0.get_first_attack = Except.ok killEv) ∧
    (matchNoEvents.get_first_attack = Except.error Err.noAttackFound) :=
  ⟨⟨rfl, rfl,
    (match_first_attack_spec match0).2 [] killEv [] rfl rfl (by intro x hx; cases hx)⟩,
   (match_first_attack_spec matchNoEvents).1 (by intro e he; cases he)⟩

/-- C2: the first `collect_stats` call on a fresh collection instance
computes the aggregate table and stores it in that instance's cache; a second
call returns the identical cached table with the state unchanged; and any
instance's cache entry is its own (a state with a cached table returns that
table untouched, and a fresh instance always computes from its own match
list, so two separately constructed instances never share a cache). -/
theorem collect_stats_memoized (ms : List MatchReport) :
    (CollectionState.mk ms none).collect_stats_cached
      = ((MatchReportCollection.mk ms).collect_stats,
         CollectionState.mk ms (some ((MatchReportCollection.mk ms).collect_stats))) ∧
    (CollectionState.mk ms none).collect_stats_cached.2.collect_stats_cached
      = (CollectionState.mk ms none).collect_stats_cached ∧
    ∀ t : Player → PlayerStats,
      (CollectionState.mk ms (some t)).collect_stats_cached
        = (t, CollectionState.mk ms (some t)) :=
  ⟨rfl, rfl, fun _ => rfl⟩

/-- C3: for every list of matches and every player, the collection-wide
aggregate read at that player equals the fold of `add_to_player_stats`
starting from a fresh zero accumulator, over the matches in match order —
equivalently over all rounds of all matches in match order then round
order. -/
theorem collect_stats_additive (ms : List MatchReport) (p : Player) :
    (MatchReportCollection.mk ms).collect_stats p
        = ms.foldl (fun s m => m.add_to_player_stats p s) ({} : PlayerStats) ∧
    (MatchReportCollection.mk ms).collect_stats p
        = (ms.flatMap (fun m => m.round_reports)).foldl
            (fun s r => r.add_to_player_stats p s) ({} : PlayerStats) := by
  have h1 : (MatchReportCollection.mk ms).collect_stats p
      = ms.foldl (fun s m => m.add_to_player_stats p s) ({} : PlayerStats) := by
    unfold MatchReportCollection.collect_stats
    exact collect_fold_pointwise p ms (fun _ => {})
  exact ⟨h1, h1.trans (match_fold_eq_round_fold p ms {})⟩

/-- C9: `get_sorted_score_table` is a permutation of the scorer's
player-score pairs that is sorted by score descending (each pair's score is
at least the next pair's), and `get_best_player` returns the first element of
that table, whose score is maximal among all the scorer's pairs. -/
theorem sorted_score_table_spec (c : MatchReportCollection) (scorer : Scorer) :
    (c.get_sorted_score_table scorer).Pairwise scoreGE ∧
    (c.get_sorted_score_table scorer).Perm (scorer c) ∧
    ∀ x, c.get_best_player scorer = Except.ok x →
      (c.get_sorted_score_table scorer).head? = some x ∧
      x ∈ scorer c ∧
      ∀ pr ∈ scorer c, pr.2 ≤ x.2 := by
  have hsorted : List.Sorted scoreGE (c.get_sorted_score_table scorer) :=
    List.sorted_insertionSort scoreGE (scorer c)
  have hperm : (c.get_sorted_score_table scorer).Perm (scorer c) :=
    List.perm_insertionSort scoreGE (scorer c)
  refine ⟨hsorted, hperm, ?_⟩
  intro x hx
  unfold MatchReportCollection.get_best_player at hx
  cases h : c.get_sorted_score_table scorer with
  | nil => rw [h] at hx; cases hx
  | cons y t =>
    rw [h] at hx
    simp only [Except.ok.injEq] at hx
    subst hx
    rw [h] at hsorted hperm
    refine ⟨rfl, hperm.mem_iff.mp (List.mem_cons_self y t), ?_⟩
    intro pr hpr
    rcases List.mem_cons.mp (hperm.mem_iff.mpr hpr) with hpy | hmem
    · rw [hpy]
    · exact List.rel_of_sorted_cons hsorted pr hmem

/-- Witness for C9: with scores 10, 30, 20 for players 5, 7, 9, the best
player is `(7, 30)`, it heads the sorted table, belongs to the scorer's
pairs, and its score bounds every score. -/
theorem sorted_score_table_spec_witness :
    coll0.get_best_player scorer0 = Except.ok (7, 30) ∧
    ((coll0.get_sorted_score_table scorer0).head? = some (7, 30) ∧
     (7, 30) ∈ scorer0 coll0 ∧
     ∀ pr ∈ scorer0 coll0, pr.2 ≤ (7, 30).2) :=
  ⟨rfl, (sorted_score_table_spec coll0 scorer0).2.2 (7, 30) rfl⟩

end CSReport
